import Mathlib

/-!
# BOINC filesystem layer (lib/filesys.cpp): a shallow embedding

The functions of `lib/filesys.cpp` are embedded as pure Lean functions.  Whatever the C++
code obtains from the operating system (whether a file opens, what `malloc` answers, the
outcome of each `fs::remove` attempt, the directory listing, ...) is an explicit argument;
whatever it mutates (`boinc_failed_file`, an out-parameter, a directory cursor, a `FILE_LOCK`)
is returned as part of the result.
-/

namespace Boinc

/-! ## Error numbers -/

/-- The error numbers of `error_numbers.h`, a header that is not part of the sources at hand.
They are kept abstract: any integers will do, as long as none of them is `0`, the value
that `filesys.cpp` returns for success. -/
structure ErrorNumbers where
  ERR_MALLOC : Int
  ERR_FOPEN : Int
  ERR_UNLINK : Int
  ERR_OPENDIR : Int
  ERR_OPEN : Int
  ERR_READDIR : Int
  ERR_FCNTL : Int
  ERR_NOT_FOUND : Int
  ERR_MALLOC_ne : ERR_MALLOC ≠ 0
  ERR_FOPEN_ne : ERR_FOPEN ≠ 0
  ERR_UNLINK_ne : ERR_UNLINK ≠ 0
  ERR_OPENDIR_ne : ERR_OPENDIR ≠ 0
  ERR_OPEN_ne : ERR_OPEN ≠ 0
  ERR_READDIR_ne : ERR_READDIR ≠ 0
  ERR_FCNTL_ne : ERR_FCNTL ≠ 0
  ERR_NOT_FOUND_ne : ERR_NOT_FOUND ≠ 0

/-- The values BOINC gives to these error numbers; used to evaluate the functions on
concrete inputs. -/
def boinc_error_numbers : ErrorNumbers where
  ERR_MALLOC := -101
  ERR_FOPEN := -108
  ERR_UNLINK := -110
  ERR_OPENDIR := -111
  ERR_OPEN := -121
  ERR_READDIR := -143
  ERR_FCNTL := -154
  ERR_NOT_FOUND := -161
  ERR_MALLOC_ne := by decide
  ERR_FOPEN_ne := by decide
  ERR_UNLINK_ne := by decide
  ERR_OPENDIR_ne := by decide
  ERR_OPEN_ne := by decide
  ERR_READDIR_ne := by decide
  ERR_FCNTL_ne := by decide
  ERR_NOT_FOUND_ne := by decide

/-! ## Machine integers -/

/-- A byte of file content. -/
abbrev Byte := Fin 256

/-- The conversion of an integer to `size_t` (64 bits, unsigned). -/
def to_size_t (i : Int) : Nat := (i % 18446744073709551616).toNat

/-- The cast `(std::streamsize)max_len` of a `size_t` to the signed 64-bit `std::streamsize`:
values from `2^63` on come out negative. -/
def to_streamsize (n : Nat) : Int :=
  if n % 18446744073709551616 < 9223372036854775808 then ((n % 18446744073709551616 : Nat) : Int)
  else ((n % 18446744073709551616 : Nat) : Int) - 18446744073709551616

/-! ## The bounded reader: `read_file_malloc` -/

/-- What a call of `read_file_malloc` leaves behind: the returned code and the buffer `buf`
points to (`none`: no buffer was obtained), or undefined behaviour. -/
inductive ReadResult where
  | ret (retval : Int) (buf : Option (List Byte))
  | undefined
  deriving DecidableEq, Repr

/-- The function `read_file_malloc(path, buf, max_len, tail)`.

* `file` is what `std::ifstream f(path, binary | ate)` finds: `none` when the file cannot be
  opened, `some c` when it opens with byte content `c`;
* `malloc_ok n` tells whether `malloc(n)` returns a non-null pointer.

`size` starts as `f.tellg()` at the end of the file, `pos` is the offset given to `f.seekg`.
With `0 ≤ size` and `pos + size` within the file, `f.read(buf, size)` delivers the `size`
bytes from `pos` on and `buf[size] = 0` appends the terminator.  A negative `size` (only
possible after the cast of a `max_len ≥ 2^63`) makes `buf[size] = 0` a write before the
start of the buffer. -/
def read_file_malloc (E : ErrorNumbers) (file : Option (List Byte)) (malloc_ok : Nat → Bool)
    (max_len : Nat) (tail : Bool) : ReadResult :=
  match file with
  | none => .ret E.ERR_FOPEN none
  | some c =>
    let size0 : Int := (c.length : Int)
    let ml : Int := to_streamsize max_len
    let pos : Int := if tail && max_len != 0 && decide (size0 > ml) then size0 - ml else 0
    let size : Int :=
      if tail && max_len != 0 && decide (size0 > ml) then ml
      else if max_len != 0 && decide (size0 > ml) then ml else size0
    if !malloc_ok (to_size_t (size + 1)) then .ret E.ERR_MALLOC none
    else if size < 0 then .undefined
    else .ret 0 (some (((c.drop pos.toNat).take size.toNat) ++ [0]))

/-- The number `n` of content bytes the specification promises for a file of `S` bytes:
`S` when `max_len = 0` or `S ≤ max_len`, and `max_len` otherwise. -/
def bounded_len (S max_len : Nat) : Nat :=
  if max_len = 0 ∨ S ≤ max_len then S else max_len

/-- The bytes the specification promises: the whole content when it fits, otherwise the
last `max_len` bytes (`tail`) or the first `max_len` bytes. -/
def bounded_slice (c : List Byte) (max_len : Nat) (tail : Bool) : List Byte :=
  if bounded_len c.length max_len = c.length then c
  else if tail then c.drop (c.length - max_len) else c.take max_len

/-- An allocator that never fails. -/
def malloc_always : Nat → Bool := fun _ => true

/-- An allocator that always fails. -/
def malloc_never : Nat → Bool := fun _ => false

/-- An allocator that serves every request up to `PTRDIFF_MAX` bytes and no larger one. -/
def malloc_ptrdiff : Nat → Bool := fun n => decide (n < 9223372036854775808)

/-! ## Directory cursors: `DirScannerImpl`, `DirScanner::scan`, `dir_open`, `dir_scan` -/

/-- One position of a `fs::directory_iterator`: the name of the entry found there, and
whether `increment(ec)` away from this position reports an error. -/
structure DirPos where
  name : String
  increment_fails : Bool
  deriving DecidableEq, Repr

/-- The structure `DirScannerImpl` with its members `it` and `end`.  A
`fs::directory_iterator` is modelled by the positions it has not passed yet, the current one
first; the end iterator (and so the member `end`, which is default-constructed and never
assigned) is the empty list. -/
structure DirScannerImpl where
  it : List DirPos
  deriving DecidableEq, Repr

/-- The constructor `DirScannerImpl(path)`, that is `it = fs::directory_iterator(path, ec)`:
`listing` is `none` when the directory cannot be opened, which leaves `it` at the end. -/
def DirScannerImpl.create (listing : Option (List DirPos)) : DirScannerImpl :=
  match listing with
  | none => ⟨[]⟩
  | some l => ⟨l⟩

/-- The listing `e1..ek` of a directory whose iteration raises no error. -/
def error_free_listing (names : List String) : List DirPos :=
  names.map (fun e => ⟨e, false⟩)

/-- The reading of the specification for the iterator surface: of the listing, the names
that do not begin with `.`, in listing order. -/
def DirScanner.expected (names : List String) : List String :=
  names.filter (fun e => !(e.data.head? == some '.'))

/-- The reading of the specification for the legacy surface: of the listing, the names other
than `.` and `..`, in listing order. -/
def dir_scan.expected (names : List String) : List String :=
  names.filter (fun e => !(e == "." || e == ".."))

/-- The result of `DirScanner::scan(name)`: the returned flag, the value of the out-parameter
`name` and the cursor after the call, or undefined behaviour. -/
inductive ScanResult where
  | ret (found : Bool) (name : String) (impl : DirScannerImpl)
  | undefined
  deriving DecidableEq, Repr

/-- The loop of `DirScanner::scan` over the iterator `impl->it`.

`const auto& entry = *impl->it;` binds a *reference* to the `directory_entry` kept inside
the iterator; it is not a copy.  `impl->it.increment(ec)` then
* on an error sets `ec` and leaves the iterator equal to the end iterator, as the C++
  standard requires of a `directory_iterator` that reports an error (`return false`);
* on reaching the end destroys the iterator state, so `entry` dangles and reading
  `entry.path()` is undefined;
* otherwise overwrites that `directory_entry` with the next entry, so `entry.path()` names
  the entry the iterator has just moved *to*.
`filename` is therefore taken from the position after the increment. -/
def DirScanner.scan_loop (name : String) : List DirPos → ScanResult
  | [] => .ret false name ⟨[]⟩
  | cur :: rest =>
    if cur.increment_fails then .ret false name ⟨[]⟩
    else
      match rest with
      | [] => .undefined
      | next :: _ =>
        if next.name.data.isEmpty || next.name.data.head? == some '.' then
          DirScanner.scan_loop name rest
        else .ret true next.name ⟨rest⟩

/-- The method `DirScanner::scan(std::string& name)` on the cursor `handle`. -/
def DirScanner.scan (name : String) (handle : DirScannerImpl) : ScanResult :=
  DirScanner.scan_loop name handle.it

/-- The (k+1)-th of successive calls of `DirScanner::scan` on one cursor. -/
def DirScanner.nth_scan : Nat → String → DirScannerImpl → ScanResult
  | 0, name, handle => DirScanner.scan name handle
  | k + 1, name, handle =>
    match DirScanner.scan name handle with
    | .ret _ name1 handle1 => DirScanner.nth_scan k name1 handle1
    | .undefined => .undefined

/-- The function `dir_open(p)`: a handle on a fresh `DirScannerImpl`. -/
def dir_open (listing : Option (List DirPos)) : DirScannerImpl :=
  DirScannerImpl.create listing

/-- The function `strlcpy(dst, src, size)`: nothing is written when `size = 0`, otherwise
`dst` receives the first `size - 1` characters of `src`. -/
def strlcpy (dst src : String) (size : Nat) : String :=
  if size = 0 then dst else String.mk (src.data.take (size - 1))

/-- The result of `dir_scan(p, d, p_len)`: the returned code, the content of the buffer `p`
and the cursor after the call, or undefined behaviour. -/
inductive DirScanResult where
  | ret (retval : Int) (p : String) (impl : DirScannerImpl)
  | undefined
  deriving DecidableEq, Repr

/-- The loop of the legacy `dir_scan(char* p, DIRREF d, int p_len)`; `entry` is the same
reference into the iterator as in `DirScanner.scan_loop`. -/
def dir_scan_loop (E : ErrorNumbers) (p : String) (p_len : Int) : List DirPos → DirScanResult
  | [] => .ret E.ERR_NOT_FOUND p ⟨[]⟩
  | cur :: rest =>
    if cur.increment_fails then .ret E.ERR_READDIR p ⟨[]⟩
    else
      match rest with
      | [] => .undefined
      | next :: _ =>
        if next.name.data.isEmpty || next.name == "." || next.name == ".." then
          dir_scan_loop E p p_len rest
        else .ret 0 (strlcpy p next.name (to_size_t p_len)) ⟨rest⟩

/-- The function `dir_scan(char* p, DIRREF d, int p_len)`. -/
def dir_scan (E : ErrorNumbers) (p : String) (d : DirScannerImpl) (p_len : Int) :
    DirScanResult :=
  dir_scan_loop E p p_len d.it

/-- The (k+1)-th of successive calls of `dir_scan` on one handle. -/
def nth_dir_scan (E : ErrorNumbers) (p_len : Int) : Nat → String → DirScannerImpl → DirScanResult
  | 0, p, d => dir_scan E p d p_len
  | k + 1, p, d =>
    match dir_scan E p d p_len with
    | .ret _ p1 d1 => nth_dir_scan E p_len k p1 d1
    | .undefined => .undefined

/-! ## Deleting a file: `boinc_delete_file` and the record `boinc_failed_file` -/

/-- The constant `MAXPATHLEN`, the size of the buffer `boinc_failed_file`. -/
def MAXPATHLEN : Nat := 4096

/-- The constant `FILE_RETRY_INTERVAL`, the number of passes of the retry loops. -/
def FILE_RETRY_INTERVAL : Nat := 5

/-- The `safe_strcpy(x, y)` of `str_replace.h`: `strlcpy(x, y, sizeof(x))`. -/
def safe_strcpy (x y : String) (sizeof_x : Nat) : String := strlcpy x y sizeof_x

/-- What a call of `boinc_delete_file` leaves behind: the returned code, the number of calls
of `fs::remove` it made, and the content of the global `boinc_failed_file`. -/
structure DeleteResult where
  retval : Int
  attempts : Nat
  boinc_failed_file : String
  deriving DecidableEq, Repr

/-- The retry loop `for (i = 0; i < FILE_RETRY_INTERVAL; i++)` of `boinc_delete_file`, entered
at index `i` with `remaining` passes to go; `remove j` is the value of the call of
`fs::remove(path, ec)` in the pass of index `j`.  After the loop the path is copied to
`boinc_failed_file` and `ERR_UNLINK` is returned.  The `boinc_sleep(1.0)` after a failed
pass changes nothing of what is modelled. -/
def boinc_delete_file.retry (E : ErrorNumbers) (remove : Nat → Bool)
    (boinc_failed_file path : String) : Nat → Nat → DeleteResult
  | 0, i => ⟨E.ERR_UNLINK, i, safe_strcpy boinc_failed_file path MAXPATHLEN⟩
  | remaining + 1, i =>
    if remove i then ⟨0, i + 1, boinc_failed_file⟩
    else boinc_delete_file.retry E remove boinc_failed_file path remaining (i + 1)

/-- The function `boinc_delete_file(path)`; `path_exists` is the value of
`fs::exists(path, ec)`. -/
def boinc_delete_file (E : ErrorNumbers) (path_exists : Bool) (remove : Nat → Bool)
    (boinc_failed_file path : String) : DeleteResult :=
  if !path_exists then ⟨0, 0, boinc_failed_file⟩
  else boinc_delete_file.retry E remove boinc_failed_file path FILE_RETRY_INTERVAL 0

/-! ## The file tree: path predicates, `dir_size`, `boinc_touch_file` -/

/-- What a path leads to: nothing, a regular file of some size, a directory with its named
entries, a symbolic link with what it points to (`absent` when it dangles), something
else (a device, a socket, ...), or a directory that the process is not allowed to list
(`opendir` fails on it, `stat` does not). -/
inductive Node where
  | absent
  | file (size : Nat)
  | dir (entries : List (String × Node))
  | symlink (target : Node)
  | other
  | unreadable_dir
  deriving Repr

/-- Following symbolic links to what they finally point to, as `stat` does. -/
def Node.resolve : Node → Node
  | .symlink target => target.resolve
  | n => n

/-- The call `fs::exists(path, ec)`; it follows symbolic links. -/
def fs_exists (path : Node) : Bool :=
  match path.resolve with
  | .absent => false
  | _ => true

/-- The call `fs::is_directory(path, ec)`; it follows symbolic links. -/
def fs_is_directory (path : Node) : Bool :=
  match path.resolve with
  | .dir _ => true
  | .unreadable_dir => true
  | _ => false

/-- The call `fs::is_regular_file(path, ec)`; it follows symbolic links. -/
def fs_is_regular_file (path : Node) : Bool :=
  match path.resolve with
  | .file _ => true
  | _ => false

/-- The call `fs::file_size(path, ec)`; it follows symbolic links, and on an error returns
`static_cast<uintmax_t>(-1)`. -/
def fs_file_size (path : Node) : Nat :=
  match path.resolve with
  | .file size => size
  | _ => 18446744073709551615

/-- The function `is_file(path)`. -/
def is_file (path : Node) : Bool := fs_is_regular_file path

/-- The number of binary digits that a natural number `n ≥ 2^53` has beyond the 53 digits
of the significand of a `double`; `fuel` bounds the recursion and `n` itself is enough. -/
def double_exponent : Nat → Nat → Nat
  | 0, _ => 0
  | fuel + 1, n => if n < 9007199254740992 then 0 else double_exponent fuel (n / 2) + 1

/-- Rounding of `n` to a multiple of `u`, to the nearest one and to the even multiple when
two are equally near (the rounding mode of IEEE 754 arithmetic). -/
def round_even (u n : Nat) : Nat :=
  if 2 * (n % u) < u ∨ (2 * (n % u) = u ∧ (n / u) % 2 = 0) then (n / u) * u
  else (n / u + 1) * u

/-- The `double` nearest to the natural number `n`, as the conversion `(double)n` and every
operation on doubles deliver it: `n` itself below `2^53`, and otherwise `n` rounded to 53
significant binary digits.  (A `double` overflows from `2^1024` on; sizes are below `2^64`,
so a sum reaches that range only after more than `2^960` entries, and it is not modelled.) -/
def to_double (n : Nat) : Nat :=
  if n < 9007199254740992 then n else round_even (2 ^ double_exponent n n) n

/-- The sum `a + b` of two doubles that hold natural numbers: the exact sum, rounded. -/
def double_add (a b : Nat) : Nat := to_double (a + b)

/-- The entries a `fs::directory_iterator(dirpath, ec)` runs through, each as `some entry`:
those directly inside the directory `dirpath` leads to.  When the directory cannot be
opened the constructor sets `ec` and yields the end iterator: no entry at all. -/
def directory_iterator (dirpath : Node) : List (Option Node) :=
  match dirpath.resolve with
  | .dir entries => entries.map (fun e => some e.2)
  | _ => []

mutual
/-- What a recursive iteration meets when it is incremented at one entry: the entries of
the subtree when the entry is a directory; `none`, the `filesystem_error` thrown by
`operator++`, when it is a directory that cannot be listed; nothing otherwise (a symbolic
link to a directory is not entered). -/
def Node.descendants : Node → List (Option Node)
  | .dir entries => recursive_entries entries
  | .unreadable_dir => [none]
  | _ => []
/-- What a recursive iteration meets for a list of directory entries: each entry, followed
by what the increment at that entry meets. -/
def recursive_entries : List (String × Node) → List (Option Node)
  | [] => []
  | (_, n) :: rest => some n :: (n.descendants ++ recursive_entries rest)
end

/-- What a `fs::recursive_directory_iterator(dirpath, ec)` in a range-for runs through: the
constructor takes `ec` (a directory that cannot be opened gives no entry at all), the
increments are made with the throwing `operator++`. -/
def recursive_directory_iterator (dirpath : Node) : List (Option Node) :=
  match dirpath.resolve with
  | .dir entries => recursive_entries entries
  | _ => []

/-- What a call of `dir_size` leaves behind: the returned code and the value of `size`, or,
when the iteration throws, the value `size` had reached. -/
inductive DirSizeResult where
  | ret (retval : Int) (size : Nat)
  | thrown (size : Nat)
  deriving DecidableEq, Repr

/-- The value left in `size`. -/
def DirSizeResult.size : DirSizeResult → Nat
  | .ret _ size => size
  | .thrown size => size

/-- The body shared by the two loops of `dir_size`:
`if (fs::is_regular_file(entry.path(), ec)) size += (double)fs::file_size(entry.path(), ec);`
with `size` a `double`. -/
def dir_size.body (size : Nat) (entry : Node) : Nat :=
  if fs_is_regular_file entry then double_add size (to_double (fs_file_size entry)) else size

/-- The range-for loops of `dir_size`, followed by `return 0`: the body runs at every entry,
and an increment that throws ends the call. -/
def dir_size.loop : Nat → List (Option Node) → DirSizeResult
  | size, [] => .ret 0 size
  | size, none :: _ => .thrown size
  | size, some entry :: rest => dir_size.loop (dir_size.body size entry) rest

/-- The function `dir_size(dirpath, size, recurse)`. -/
def dir_size (E : ErrorNumbers) (dirpath : Node) (recurse : Bool) : DirSizeResult :=
  if !fs_exists dirpath || !fs_is_directory dirpath then .ret E.ERR_OPENDIR 0
  else if recurse then dir_size.loop 0 (recursive_directory_iterator dirpath)
  else dir_size.loop 0 (directory_iterator dirpath)

mutual
/-- The entries below one entry (those of its subtree when it is a directory that can be
listed), in the order of the recursive iteration. -/
def Node.subtree : Node → List Node
  | .dir entries => subtree_entries entries
  | _ => []
/-- The entries of a subtree, in the order of the recursive iteration. -/
def subtree_entries : List (String × Node) → List Node
  | [] => []
  | (_, n) :: rest => n :: (n.subtree ++ subtree_entries rest)
end

mutual
/-- Whether an entry is a directory that cannot be listed, or a directory with such a
directory in its subtree. -/
def Node.contains_unreadable : Node → Bool
  | .unreadable_dir => true
  | .dir entries => contains_unreadable entries
  | _ => false
/-- Whether a directory that cannot be listed lies among the entries or below them. -/
def contains_unreadable : List (String × Node) → Bool
  | [] => false
  | (_, n) :: rest => n.contains_unreadable || contains_unreadable rest
end

mutual
/-- The reading of the specification, for one entry: a regular file counts with its size, a
directory with the regular files of its subtree when `recurse` is set, and a directory
otherwise, a symbolic link or anything else with nothing. -/
def Node.regular_file_bytes (recurse : Bool) : Node → Nat
  | .file size => size
  | .dir entries => if recurse then regular_file_bytes recurse entries else 0
  | _ => 0
/-- The reading of the specification: the sum of the sizes of the regular files directly
inside a directory (`recurse = false`) or anywhere in its subtree (`recurse = true`). -/
def regular_file_bytes (recurse : Bool) : List (String × Node) → Nat
  | [] => 0
  | (_, n) :: rest => n.regular_file_bytes recurse + regular_file_bytes recurse rest
end

mutual
/-- The amended reading, for one entry: as `Node.regular_file_bytes`, except that a symbolic
link leading to a regular file counts with the size of that file. -/
def Node.counted_bytes (recurse : Bool) : Node → Nat
  | .file size => size
  | .symlink target =>
    match target.resolve with
    | .file size => size
    | _ => 0
  | .dir entries => if recurse then counted_bytes recurse entries else 0
  | _ => 0
/-- The amended reading: the sum over the entries directly inside a directory, or anywhere
in its subtree, of the sizes of the regular files and of the regular files that symbolic
links lead to. -/
def counted_bytes (recurse : Bool) : List (String × Node) → Nat
  | [] => 0
  | (_, n) :: rest => n.counted_bytes recurse + counted_bytes recurse rest
end

mutual
/-- Whether an entry is a regular file or a directory with a regular file in its subtree. -/
def Node.contains_regular_file : Node → Bool
  | .file _ => true
  | .dir entries => contains_regular_file entries
  | _ => false
/-- Whether some regular file lies among the entries or below them. -/
def contains_regular_file : List (String × Node) → Bool
  | [] => false
  | (_, n) :: rest => n.contains_regular_file || contains_regular_file rest
end

mutual
/-- Whether an entry is a regular file, a symbolic link leading to one, or a directory with
one of these in its subtree. -/
def Node.contains_file_or_link : Node → Bool
  | .file _ => true
  | .symlink target =>
    match target.resolve with
    | .file _ => true
    | _ => false
  | .dir entries => contains_file_or_link entries
  | _ => false
/-- Whether a regular file or a symbolic link leading to one lies among the entries or below
them. -/
def contains_file_or_link : List (String × Node) → Bool
  | [] => false
  | (_, n) :: rest => n.contains_file_or_link || contains_file_or_link rest
end

/-- Whether some subdirectory among the entries of `d` contains a regular file. -/
def subdirectory_contains_file : List (String × Node) → Bool
  | [] => false
  | (_, .dir sub) :: rest => contains_regular_file sub || subdirectory_contains_file rest
  | _ :: rest => subdirectory_contains_file rest

/-- Whether some subdirectory among the entries of `d` contains a regular file or a
symbolic link leading to one. -/
def subdirectory_contains_file_or_link : List (String × Node) → Bool
  | [] => false
  | (_, .dir sub) :: rest =>
    contains_file_or_link sub || subdirectory_contains_file_or_link rest
  | _ :: rest => subdirectory_contains_file_or_link rest

/-- The scenario of the specification: `d` holds `a` (10 bytes), `b` (20 bytes) and the
subdirectory `sub` with `c` (5 bytes). -/
def scenario_dir : Node :=
  .dir [("a", .file 10), ("b", .file 20), ("sub", .dir [("c", .file 5)])]

/-- What the successful `std::ofstream ofs(path)` makes of a path at which nothing exists:
an empty regular file, placed where the path leads to (through dangling symbolic links). -/
def Node.create_file : Node → Node
  | .absent => .file 0
  | .symlink target => .symlink target.create_file
  | n => n

/-- The function `boinc_touch_file(path)`: the returned code and what the path leads to
afterwards; `open_ok` tells whether the `std::ofstream` manages to open (create) the file,
that is the value of `ofs.good()`. -/
def boinc_touch_file (path : Node) (open_ok : Bool) : Int × Node :=
  if fs_exists path then (0, path)
  else if open_ok then (0, path.create_file)
  else (-1, path)

/-! ## The exclusive lock: `FILE_LOCK` -/

/-- The structure `FILE_LOCK` (the branch for systems other than Windows). -/
structure FILE_LOCK where
  fd : Int
  locked : Bool
  deriving DecidableEq, Repr

/-- The constructor `FILE_LOCK::FILE_LOCK()`. -/
def FILE_LOCK.create : FILE_LOCK := ⟨-1, false⟩

/-- The method `FILE_LOCK::lock(filename)`: the returned code and the handle afterwards.
`open_fd` is the outcome of `open(filename, O_WRONLY|O_CREAT, 0666)` (`none`: it failed and
returned `-1`, `some n`: it returned the descriptor `n`), `flock_ok` tells whether
`flock(fd, LOCK_EX|LOCK_NB)` returned `0`. -/
def FILE_LOCK.lock (E : ErrorNumbers) (self : FILE_LOCK) (open_fd : Option Nat)
    (flock_ok : Bool) : Int × FILE_LOCK :=
  let fd : Int :=
    match open_fd with
    | none => -1
    | some n => (n : Int)
  let self1 : FILE_LOCK := { self with fd := fd }
  if fd < 0 then (E.ERR_OPEN, self1)
  else if !flock_ok then (E.ERR_FCNTL, self1)
  else (0, { self1 with locked := true })

/-- The method `FILE_LOCK::unlock(filename)`: the returned code and the handle afterwards,
with the outcome of the call of `boinc_delete_file(filename)` it makes and ignores. -/
def FILE_LOCK.unlock (E : ErrorNumbers) (_self : FILE_LOCK) (path_exists : Bool)
    (remove : Nat → Bool) (boinc_failed_file filename : String) :
    Int × FILE_LOCK × DeleteResult :=
  (0, ⟨-1, false⟩, boinc_delete_file E path_exists remove boinc_failed_file filename)

/-! ## The string-returning reader: `read_file_string` -/

/-- The conversion of a `char*` to a `std::string` made by the assignment `result = buf`:
the bytes that stand before the first `0` byte. -/
def c_string (buf : List Byte) : List Byte :=
  buf.takeWhile (fun b => b != 0)

/-- What a call of `read_file_string` leaves behind: the returned code and the content of
`result`, or undefined behaviour. -/
inductive ReadStringResult where
  | ret (retval : Int) (result : List Byte)
  | undefined
  deriving DecidableEq, Repr

/-- The function `read_file_string(path, result, max_len, tail)`; `file` and `malloc_ok` are
those of `read_file_malloc`, `result` is the content of the string before the call.  A
non-zero code of `read_file_malloc` is returned at once, with `result` untouched; otherwise
`result = buf` converts the buffer as a C string. -/
def read_file_string (E : ErrorNumbers) (file : Option (List Byte)) (malloc_ok : Nat → Bool)
    (result : List Byte) (max_len : Nat) (tail : Bool) : ReadStringResult :=
  match read_file_malloc E file malloc_ok max_len tail with
  | .undefined => .undefined
  | .ret retval buf =>
    if retval != 0 then .ret retval result
    else
      match buf with
      | none => .undefined
      | some b => .ret 0 (c_string b)

/-- The code returned by `read_file_malloc`, when the call is defined. -/
def ReadResult.code : ReadResult → Option Int
  | .ret retval _ => some retval
  | .undefined => none

/-- The code returned by `read_file_string`, when the call is defined. -/
def ReadStringResult.code : ReadStringResult → Option Int
  | .ret retval _ => some retval
  | .undefined => none

/-! ### Theorems about `read_file_malloc` -/

theorem to_streamsize_small (n : Nat) (h : n < 9223372036854775808) :
    to_streamsize n = (n : Int) := by
  unfold to_streamsize
  have h1 : n % 18446744073709551616 = n := Nat.mod_eq_of_lt (by omega)
  rw [h1, if_pos h]

theorem to_size_t_small (n : Nat) (h : n < 18446744073709551616) :
    to_size_t (n : Int) = n := by
  unfold to_size_t
  omega

/-- C1, the claim as written, fails: (1) a 3-byte file read with `max_len = 0` when the
allocation fails gives `ERR_MALLOC`, not `0`; (2) with `max_len = 2^63` the cast to
`std::streamsize` is negative, the 3-byte file counts as longer than `max_len`, and the call
asks `malloc` for `2^63 + 1` bytes and returns `ERR_MALLOC` instead of `0` with the whole
content. -/
theorem read_file_malloc_claim_fails :
    read_file_malloc boinc_error_numbers (some [1, 2, 3]) malloc_never 0 false
        = .ret boinc_error_numbers.ERR_MALLOC none
      ∧ read_file_malloc boinc_error_numbers (some [1, 2, 3]) malloc_never 0 false
        ≠ .ret 0 (some (bounded_slice [1, 2, 3] 0 false ++ [0]))
      ∧ bounded_slice [1, 2, 3] 9223372036854775808 false = [1, 2, 3]
      ∧ read_file_malloc boinc_error_numbers (some [1, 2, 3]) malloc_ptrdiff
          9223372036854775808 false = .ret boinc_error_numbers.ERR_MALLOC none
      ∧ read_file_malloc boinc_error_numbers (some [1, 2, 3]) malloc_ptrdiff
          9223372036854775808 false
        ≠ .ret 0 (some (bounded_slice [1, 2, 3] 9223372036854775808 false ++ [0])) := by
  decide

/-- C1, amended: for a file that opens with content `c` (shorter than `2^63` bytes), every
`max_len < 2^63` and every `tail`: when `malloc` grants the `n + 1` bytes asked for,
`read_file_malloc` returns `0` and `buf` holds exactly the `n` promised bytes of `c` (all of
`c`, its last `max_len` bytes, or its first `max_len` bytes) followed by one `0` byte, and
the `n` bytes number `n`; when `malloc` refuses, it returns `ERR_MALLOC`; and a file that
cannot be opened gives `ERR_FOPEN`. -/
theorem read_file_malloc_bounded (E : ErrorNumbers) (c : List Byte) (malloc_ok : Nat → Bool)
    (max_len : Nat) (tail : Bool)
    (hS : c.length < 9223372036854775808) (hm : max_len < 9223372036854775808) :
    (malloc_ok (bounded_len c.length max_len + 1) = true →
        read_file_malloc E (some c) malloc_ok max_len tail
          = .ret 0 (some (bounded_slice c max_len tail ++ [0])))
      ∧ (malloc_ok (bounded_len c.length max_len + 1) = false →
        read_file_malloc E (some c) malloc_ok max_len tail = .ret E.ERR_MALLOC none)
      ∧ (bounded_slice c max_len tail).length = bounded_len c.length max_len
      ∧ read_file_malloc E none malloc_ok max_len tail = .ret E.ERR_FOPEN none := by
  have hml : to_streamsize max_len = (max_len : Int) := to_streamsize_small max_len hm
  have hsz : ∀ k : Nat, k < 9223372036854775808 → to_size_t ((k : Int) + 1) = k + 1 := by
    intro k hk
    have := to_size_t_small (k + 1) (by omega)
    simpa using this
  have hlen : (bounded_slice c max_len tail).length = bounded_len c.length max_len := by
    unfold bounded_slice
    by_cases hb : bounded_len c.length max_len = c.length
    · rw [if_pos hb, hb]
    · rw [if_neg hb]
      have hb2 : bounded_len c.length max_len = max_len ∧ max_len < c.length := by
        unfold bounded_len at hb ⊢
        split_ifs at hb ⊢ with h
        · exact absurd rfl hb
        · exact ⟨rfl, by omega⟩
      cases tail
      · simp only [Bool.false_eq_true, if_false, List.length_take]
        omega
      · simp only [if_true, List.length_drop]
        omega
  refine ⟨?_, ?_, hlen, rfl⟩
  · intro hmo
    by_cases h0 : max_len = 0
    · subst h0
      simp only [bounded_len, true_or, if_true] at hmo
      simp [read_file_malloc, bounded_len, bounded_slice, hsz c.length hS, hmo]
    · by_cases h1 : c.length ≤ max_len
      · have h2 : ¬ ((max_len : Int) < (c.length : Int)) := by omega
        simp only [bounded_len, h1, or_true, if_true] at hmo
        simp [read_file_malloc, bounded_len, bounded_slice, hml, hsz c.length hS, h1, h2, hmo]
      · have h2 : ((max_len : Int) < (c.length : Int)) := by omega
        have h3 : max_len ≠ c.length := by omega
        have h4 : ((c.length : Int) - (max_len : Int)).toNat = c.length - max_len := by omega
        simp only [bounded_len, h0, h1, or_self, if_false] at hmo
        cases tail
        · simp [read_file_malloc, bounded_len, bounded_slice, hml, hsz max_len hm, h0, h1, h2,
            h3, hmo]
        · simp [read_file_malloc, bounded_len, bounded_slice, hml, hsz max_len hm, h0, h1, h2,
            h3, h4, hmo]
          have h5 : ¬ ((max_len : Int) < 0) := by omega
          rw [if_neg h5, List.take_of_length_le (by rw [List.length_drop]; omega)]
  · intro hmo
    by_cases h0 : max_len = 0
    · subst h0
      simp only [bounded_len, true_or, if_true] at hmo
      simp [read_file_malloc, hsz c.length hS, hmo]
    · by_cases h1 : c.length ≤ max_len
      · have h2 : ¬ ((max_len : Int) < (c.length : Int)) := by omega
        simp only [bounded_len, h1, or_true, if_true] at hmo
        simp [read_file_malloc, hml, hsz c.length hS, h2, hmo]
      · have h2 : ((max_len : Int) < (c.length : Int)) := by omega
        simp only [bounded_len, h0, h1, or_self, if_false] at hmo
        cases tail <;> simp [read_file_malloc, hml, hsz max_len hm, h0, h2, hmo]

/-- The witness of `read_file_malloc_bounded`: the last 2 bytes of a 5-byte file. -/
theorem read_file_malloc_bounded_witness :
    read_file_malloc boinc_error_numbers (some [1, 2, 3, 4, 5]) malloc_always 2 true
        = .ret 0 (some (bounded_slice [1, 2, 3, 4, 5] 2 true ++ [0]))
      ∧ bounded_slice [1, 2, 3, 4, 5] 2 true = [4, 5] :=
  ⟨(read_file_malloc_bounded boinc_error_numbers [1, 2, 3, 4, 5] malloc_always 2 true
      (by decide) (by decide)).1 (by decide), by decide⟩

/-! ### Theorems about the directory cursors -/

/-- C2: in a directory listed as `a.txt`, `b.txt` (no error), where the specification
expects `a.txt` and then `b.txt`, the first call of `DirScanner::scan` on a fresh cursor
returns `true` with `b.txt`, not `a.txt`, and the second call reads the entry through a
dangling reference; `a.txt` is never delivered.  Listed as `visible.txt`, `.hidden`, the
scenario directory delivers nothing before the dangling read. -/
theorem DirScanner_scan_skips_first_entry :
    DirScanner.expected ["a.txt", "b.txt"] = ["a.txt", "b.txt"]
      ∧ DirScanner.scan "" (DirScannerImpl.create (some (error_free_listing ["a.txt", "b.txt"])))
        = .ret true "b.txt" ⟨error_free_listing ["b.txt"]⟩
      ∧ DirScanner.scan "b.txt" ⟨error_free_listing ["b.txt"]⟩ = .undefined
      ∧ DirScanner.scan ""
          (DirScannerImpl.create (some (error_free_listing ["visible.txt", ".hidden"])))
        = .undefined := by
  decide

/-- C3: in a directory listed as `.hidden`, `visible.txt` (no error), where the
specification expects `.hidden` and then `visible.txt`, the first call of the legacy
`dir_scan` on a handle fresh from `dir_open` returns `0` with `visible.txt`, not `.hidden`,
and the second call reads the entry through a dangling reference instead of returning
`ERR_NOT_FOUND`; `.hidden` is never delivered. -/
theorem dir_scan_skips_first_entry :
    dir_scan.expected [".hidden", "visible.txt"] = [".hidden", "visible.txt"]
      ∧ dir_scan boinc_error_numbers "" (dir_open (some (error_free_listing [".hidden", "visible.txt"])))
        4096
        = .ret 0 "visible.txt" ⟨error_free_listing ["visible.txt"]⟩
      ∧ dir_scan boinc_error_numbers "visible.txt" ⟨error_free_listing ["visible.txt"]⟩ 4096
        = .undefined := by
  decide

theorem DirScanner.scan_loop_false (name : String) (l : List DirPos) (name1 : String)
    (handle1 : DirScannerImpl) (h : DirScanner.scan_loop name l = .ret false name1 handle1) :
    name1 = name ∧ handle1 = ⟨[]⟩ := by
  induction l with
  | nil =>
    simp only [DirScanner.scan_loop, ScanResult.ret.injEq, true_and] at h
    exact ⟨h.1.symm, h.2.symm⟩
  | cons cur rest ih =>
    unfold DirScanner.scan_loop at h
    by_cases hf : cur.increment_fails = true
    · rw [if_pos hf] at h
      simp only [ScanResult.ret.injEq, true_and] at h
      exact ⟨h.1.symm, h.2.symm⟩
    · rw [if_neg hf] at h
      cases rest with
      | nil => simp at h
      | cons next more =>
        simp only at h
        split_ifs at h with hh
        · exact ih h
        · simp at h

theorem DirScanner.nth_scan_end (name : String) (k : Nat) :
    DirScanner.nth_scan k name ⟨[]⟩ = .ret false name ⟨[]⟩ := by
  induction k with
  | zero => rfl
  | succ k ih => simpa [DirScanner.nth_scan, DirScanner.scan, DirScanner.scan_loop] using ih

theorem dir_scan_loop_nonzero (E : ErrorNumbers) (p : String) (p_len : Int) (l : List DirPos)
    (r : Int) (p1 : String) (d1 : DirScannerImpl)
    (h : dir_scan_loop E p p_len l = .ret r p1 d1) (hr : r ≠ 0) : p1 = p ∧ d1 = ⟨[]⟩ := by
  induction l with
  | nil =>
    simp only [dir_scan_loop, DirScanResult.ret.injEq] at h
    exact ⟨h.2.1.symm, h.2.2.symm⟩
  | cons cur rest ih =>
    unfold dir_scan_loop at h
    by_cases hf : cur.increment_fails = true
    · rw [if_pos hf] at h
      simp only [DirScanResult.ret.injEq] at h
      exact ⟨h.2.1.symm, h.2.2.symm⟩
    · rw [if_neg hf] at h
      cases rest with
      | nil => simp at h
      | cons next more =>
        simp only at h
        split_ifs at h with hh
        · exact ih h
        · simp only [DirScanResult.ret.injEq] at h
          exact absurd h.1.symm hr

theorem nth_dir_scan_end (E : ErrorNumbers) (p_len : Int) (p : String) (k : Nat) :
    nth_dir_scan E p_len k p ⟨[]⟩ = .ret E.ERR_NOT_FOUND p ⟨[]⟩ := by
  induction k with
  | zero => rfl
  | succ k ih => simpa [nth_dir_scan, dir_scan, dir_scan_loop] using ih

/-- C10: once `DirScanner::scan` has returned `false` on a cursor, or `dir_scan` a non-zero
code (the end was reached, or the increment of the iterator raised an error), that call has
left the output `name` / `p` as it was, and every later call on the cursor reports the same:
`scan` returns `false`, `dir_scan` returns the non-zero `ERR_NOT_FOUND`, and neither writes
a name. -/
theorem exhausted_cursor_stays_exhausted (E : ErrorNumbers) (name p : String) (p_len : Int)
    (handle d : DirScannerImpl) :
    (∀ name1 handle1, DirScanner.scan name handle = .ret false name1 handle1 →
        name1 = name ∧ ∀ k, DirScanner.nth_scan k name1 handle1 = .ret false name handle1)
      ∧ (∀ r p1 d1, dir_scan E p d p_len = .ret r p1 d1 → r ≠ 0 →
        p1 = p ∧ E.ERR_NOT_FOUND ≠ 0
          ∧ ∀ k, nth_dir_scan E p_len k p1 d1 = .ret E.ERR_NOT_FOUND p d1) := by
  constructor
  · intro name1 handle1 h
    obtain ⟨h1, h2⟩ := DirScanner.scan_loop_false name handle.it name1 handle1 h
    subst h1 h2
    exact ⟨rfl, fun k => DirScanner.nth_scan_end name1 k⟩
  · intro r p1 d1 h hr
    obtain ⟨h1, h2⟩ := dir_scan_loop_nonzero E p p_len d.it r p1 d1 h hr
    subst h1 h2
    exact ⟨rfl, E.ERR_NOT_FOUND_ne, fun k => nth_dir_scan_end E p_len p1 k⟩

/-- The witness of `exhausted_cursor_stays_exhausted`: a cursor whose first increment raises
an error reports the end on that call and on the two calls after it. -/
theorem exhausted_cursor_stays_exhausted_witness :
    DirScanner.scan "old" ⟨[⟨"a.txt", true⟩, ⟨"b.txt", false⟩]⟩ = .ret false "old" ⟨[]⟩
      ∧ DirScanner.nth_scan 1 "old" ⟨[]⟩ = .ret false "old" ⟨[]⟩
      ∧ dir_scan boinc_error_numbers "old" ⟨[⟨"a.txt", true⟩, ⟨"b.txt", false⟩]⟩ 4096
          = .ret boinc_error_numbers.ERR_READDIR "old" ⟨[]⟩
      ∧ nth_dir_scan boinc_error_numbers 4096 1 "old" ⟨[]⟩
          = .ret boinc_error_numbers.ERR_NOT_FOUND "old" ⟨[]⟩ :=
  have h := exhausted_cursor_stays_exhausted boinc_error_numbers "old" "old" 4096
    ⟨[⟨"a.txt", true⟩, ⟨"b.txt", false⟩]⟩ ⟨[⟨"a.txt", true⟩, ⟨"b.txt", false⟩]⟩
  ⟨by decide, (h.1 "old" ⟨[]⟩ (by decide)).2 1, by decide,
    (h.2 boinc_error_numbers.ERR_READDIR "old" ⟨[]⟩ (by decide) (by decide)).2.2 1⟩

/-! ### Theorems about `boinc_delete_file` -/

theorem safe_strcpy_fits (x y : String) (h : y.length < MAXPATHLEN) :
    safe_strcpy x y MAXPATHLEN = y := by
  have h1 : y.data.length ≤ MAXPATHLEN - 1 := by
    have : y.data.length = y.length := rfl
    omega
  simp only [safe_strcpy, strlcpy, MAXPATHLEN] at *
  rw [if_neg (by decide), List.take_of_length_le h1]

theorem boinc_delete_file.retry_all_fail (E : ErrorNumbers) (remove : Nat → Bool)
    (failed path : String) (remaining : Nat) :
    ∀ i : Nat, (∀ j, j < remaining → remove (i + j) = false) →
      boinc_delete_file.retry E remove failed path remaining i
        = ⟨E.ERR_UNLINK, i + remaining, safe_strcpy failed path MAXPATHLEN⟩ := by
  induction remaining with
  | zero => intro i _; rfl
  | succ r ih =>
    intro i h
    have h0 : remove i = false := by simpa using h 0 (by omega)
    have h1 := ih (i + 1) (fun j hj => by
      have := h (j + 1) (by omega)
      rwa [show i + 1 + j = i + (j + 1) by omega])
    simp only [boinc_delete_file.retry, h0, Bool.false_eq_true, if_false, h1]
    congr 1
    omega

theorem boinc_delete_file.retry_success (E : ErrorNumbers) (remove : Nat → Bool)
    (failed path : String) (remaining : Nat) :
    ∀ i m : Nat, m < remaining → (∀ j, j < m → remove (i + j) = false) →
      remove (i + m) = true →
      boinc_delete_file.retry E remove failed path remaining i = ⟨0, i + m + 1, failed⟩ := by
  induction remaining with
  | zero => intro i m hm; omega
  | succ r ih =>
    intro i m hm hfail hok
    cases m with
    | zero =>
      have h0 : remove i = true := by simpa using hok
      simp [boinc_delete_file.retry, h0]
    | succ m =>
      have h0 : remove i = false := by simpa using hfail 0 (by omega)
      have h1 := ih (i + 1) m (by omega) (fun j hj => by
        have := hfail (j + 1) (by omega)
        rwa [show i + 1 + j = i + (j + 1) by omega])
        (by rwa [show i + 1 + m = i + (m + 1) by omega])
      simp only [boinc_delete_file.retry, h0, Bool.false_eq_true, if_false, h1]
      congr 1
      omega

/-- C4: for a path that does not exist (`fs::exists` is false), whatever `fs::remove` would
answer and whatever `boinc_failed_file` holds, `boinc_delete_file` returns `0`, makes no
call of `fs::remove`, and leaves `boinc_failed_file` exactly as it was. -/
theorem boinc_delete_file_absent (E : ErrorNumbers) (remove : Nat → Bool)
    (boinc_failed_file path : String) :
    boinc_delete_file E false remove boinc_failed_file path = ⟨0, 0, boinc_failed_file⟩ := by
  rfl

/-- C5: for an existing path `p` shorter than `MAXPATHLEN`: when every attempt fails,
`boinc_delete_file` makes exactly `FILE_RETRY_INTERVAL = 5` calls of `fs::remove`, returns
`ERR_UNLINK` (not `0`) and leaves `p` in `boinc_failed_file`; when attempt `k ≤ 5` is the
first to succeed it makes exactly `k` calls, returns `0` and leaves `boinc_failed_file` as
it was. -/
theorem boinc_delete_file_retries (E : ErrorNumbers) (remove : Nat → Bool)
    (boinc_failed_file p : String) (hp : p.length < MAXPATHLEN) :
    FILE_RETRY_INTERVAL = 5
      ∧ ((∀ j, j < FILE_RETRY_INTERVAL → remove j = false) →
        boinc_delete_file E true remove boinc_failed_file p = ⟨E.ERR_UNLINK, 5, p⟩
          ∧ E.ERR_UNLINK ≠ 0)
      ∧ (∀ k, 1 ≤ k → k ≤ FILE_RETRY_INTERVAL → (∀ j, j + 1 < k → remove j = false) →
        remove (k - 1) = true →
        boinc_delete_file E true remove boinc_failed_file p = ⟨0, k, boinc_failed_file⟩) := by
  refine ⟨rfl, ?_, ?_⟩
  · intro h
    have h1 := boinc_delete_file.retry_all_fail E remove boinc_failed_file p
      FILE_RETRY_INTERVAL 0 (fun j hj => by simpa using h j hj)
    rw [safe_strcpy_fits _ _ hp] at h1
    exact ⟨by simpa [boinc_delete_file, FILE_RETRY_INTERVAL] using h1, E.ERR_UNLINK_ne⟩
  · intro k hk1 hk5 hfail hok
    have h1 := boinc_delete_file.retry_success E remove boinc_failed_file p
      FILE_RETRY_INTERVAL 0 (k - 1) (by omega)
      (fun j hj => by simpa using hfail j (by omega)) (by simpa using hok)
    have h2 : 0 + (k - 1) + 1 = k := by omega
    rw [h2] at h1
    simpa [boinc_delete_file] using h1

/-- The witness of `boinc_delete_file_retries`: `fs::remove` fails twice and then succeeds,
or fails every time. -/
theorem boinc_delete_file_retries_witness :
    boinc_delete_file boinc_error_numbers true (fun j => decide (j = 2)) "old" "slot/out.tmp"
        = ⟨0, 3, "old"⟩
      ∧ boinc_delete_file boinc_error_numbers true (fun _ => false) "old" "slot/out.tmp"
        = ⟨boinc_error_numbers.ERR_UNLINK, 5, "slot/out.tmp"⟩ :=
  ⟨(boinc_delete_file_retries boinc_error_numbers (fun j => decide (j = 2)) "old"
      "slot/out.tmp" (by decide)).2.2 3 (by decide) (by decide)
      (fun j hj => by
        have hj2 : j ≠ 2 := by omega
        simp [hj2])
      (by decide),
    ((boinc_delete_file_retries boinc_error_numbers (fun _ => false) "old"
      "slot/out.tmp" (by decide)).2.1 (fun _ _ => rfl)).1⟩

/-! ### Theorems about `dir_size` -/

theorem double_exponent_small (fuel n : Nat) (h : n < 9007199254740992) :
    double_exponent fuel n = 0 := by
  cases fuel with
  | zero => rfl
  | succ f => simp [double_exponent, h]

theorem double_exponent_spec (fuel : Nat) : ∀ n : Nat, n ≤ fuel → 9007199254740992 ≤ n →
    1 ≤ double_exponent fuel n
      ∧ 4503599627370496 * 2 ^ double_exponent fuel n ≤ n
      ∧ n < 9007199254740992 * 2 ^ double_exponent fuel n := by
  induction fuel with
  | zero => intro n h1 h2; omega
  | succ f ih =>
    intro n h1 h2
    have hn : ¬ n < 9007199254740992 := by omega
    simp only [double_exponent, if_neg hn]
    by_cases hh : n / 2 < 9007199254740992
    · rw [double_exponent_small f _ hh]
      refine ⟨by omega, ?_, ?_⟩ <;> norm_num <;> omega
    · obtain ⟨e1, e2, e3⟩ := ih (n / 2) (by omega) (by omega)
      refine ⟨by omega, ?_, ?_⟩
      · rw [pow_succ]; omega
      · rw [pow_succ]; omega

theorem double_exponent_unique (e1 e2 v : Nat)
    (h1 : 4503599627370496 * 2 ^ e1 ≤ v) (h2 : v < 9007199254740992 * 2 ^ e2) : e1 ≤ e2 := by
  by_contra hc
  have h3 : e2 + 1 ≤ e1 := by omega
  have h4 : 2 ^ (e2 + 1) ≤ 2 ^ e1 := Nat.pow_le_pow_right (by norm_num) h3
  rw [pow_succ] at h4
  omega

theorem double_exponent_eq (e v : Nat) (h0 : 1 ≤ e)
    (h1 : 4503599627370496 * 2 ^ e ≤ v) (h2 : v < 9007199254740992 * 2 ^ e) :
    double_exponent v v = e := by
  have hp : 2 ≤ 2 ^ e := by
    calc 2 = 2 ^ 1 := by norm_num
      _ ≤ 2 ^ e := Nat.pow_le_pow_right (by norm_num) h0
  have hv : 9007199254740992 ≤ v := by omega
  obtain ⟨_, s2, s3⟩ := double_exponent_spec v v (Nat.le_refl _) hv
  have a := double_exponent_unique _ _ v s2 h2
  have b := double_exponent_unique _ _ v h1 s3
  omega

theorem round_even_mul (u k : Nat) (hu : 0 < u) : round_even u (k * u) = k * u := by
  unfold round_even
  rw [Nat.mul_mod_left, Nat.mul_div_cancel _ hu, if_pos (Or.inl (by omega))]

theorem round_even_bounds (u n : Nat) :
    (n / u) * u ≤ round_even u n ∧ round_even u n ≤ (n / u + 1) * u := by
  unfold round_even
  have h : (n / u) * u ≤ (n / u + 1) * u := Nat.mul_le_mul_right _ (by omega)
  split_ifs
  · exact ⟨Nat.le_refl _, h⟩
  · exact ⟨h, Nat.le_refl _⟩

theorem round_even_mono (u m n : Nat) (h : m ≤ n) :
    round_even u m ≤ round_even u n := by
  have hq : m / u ≤ n / u := Nat.div_le_div_right h
  rcases Nat.lt_or_ge (m / u) (n / u) with hlt | hge
  · calc round_even u m ≤ (m / u + 1) * u := (round_even_bounds u m).2
      _ ≤ (n / u) * u := Nat.mul_le_mul_right _ hlt
      _ ≤ round_even u n := (round_even_bounds u n).1
  · have heq : m / u = n / u := by omega
    have hm := Nat.div_add_mod m u
    have hn := Nat.div_add_mod n u
    have hr : m % u ≤ n % u := by
      rw [heq] at hm
      omega
    have hlt : (n / u) * u ≤ (n / u + 1) * u := Nat.mul_le_mul_right _ (by omega)
    unfold round_even
    rw [heq]
    split_ifs with c1 c2 c2
    · exact Nat.le_refl _
    · exact hlt
    · exfalso
      omega
    · exact Nat.le_refl _

theorem to_double_small (n : Nat) (h : n ≤ 9007199254740992) : to_double n = n := by
  rcases Nat.lt_or_ge n 9007199254740992 with h1 | h1
  · simp [to_double, h1]
  · have : n = 9007199254740992 := by omega
    subst this
    decide

theorem to_double_large (n : Nat) (h : 9007199254740992 ≤ n) :
    ∃ e k, 1 ≤ e ∧ 4503599627370496 ≤ k ∧ k ≤ 9007199254740992
      ∧ to_double n = k * 2 ^ e ∧ to_double n = round_even (2 ^ e) n
      ∧ 4503599627370496 * 2 ^ e ≤ n ∧ n < 9007199254740992 * 2 ^ e := by
  obtain ⟨s1, s2, s3⟩ := double_exponent_spec n n (Nat.le_refl _) h
  have hn : ¬ n < 9007199254740992 := by omega
  have hu : 0 < 2 ^ double_exponent n n := Nat.pow_pos (by norm_num)
  have hdef : to_double n = round_even (2 ^ double_exponent n n) n := by
    simp [to_double, hn]
  have hq1 : 4503599627370496 ≤ n / 2 ^ double_exponent n n :=
    (Nat.le_div_iff_mul_le hu).2 s2
  have hq2 : n / 2 ^ double_exponent n n < 9007199254740992 :=
    (Nat.div_lt_iff_lt_mul hu).2 s3
  by_cases c : 2 * (n % 2 ^ double_exponent n n) < 2 ^ double_exponent n n
      ∨ (2 * (n % 2 ^ double_exponent n n) = 2 ^ double_exponent n n
        ∧ (n / 2 ^ double_exponent n n) % 2 = 0)
  · refine ⟨_, n / 2 ^ double_exponent n n, s1, hq1, by omega, ?_, hdef, s2, s3⟩
    rw [hdef, round_even, if_pos c]
  · refine ⟨_, n / 2 ^ double_exponent n n + 1, s1, by omega, by omega, ?_, hdef, s2, s3⟩
    rw [hdef, round_even, if_neg c]

theorem to_double_idem (n : Nat) : to_double (to_double n) = to_double n := by
  rcases Nat.lt_or_ge n 9007199254740992 with h | h
  · have : to_double n = n := to_double_small n (by omega)
    rw [this, this]
  · obtain ⟨e, k, he, hk1, hk2, hv, _, _, _⟩ := to_double_large n h
    rw [hv]
    have hu : 0 < 2 ^ e := Nat.pow_pos (by norm_num)
    have hu1 : 0 < 2 ^ (e + 1) := Nat.pow_pos (by norm_num)
    have hp : 2 ≤ 2 ^ e := by
      calc 2 = 2 ^ 1 := by norm_num
        _ ≤ 2 ^ e := Nat.pow_le_pow_right (by norm_num) he
    have hlow : 4503599627370496 * 2 ^ e ≤ k * 2 ^ e := Nat.mul_le_mul_right _ hk1
    have hbig : ¬ k * 2 ^ e < 9007199254740992 := by omega
    rcases Nat.lt_or_ge k 9007199254740992 with hk | hk
    · have hup : k * 2 ^ e < 9007199254740992 * 2 ^ e := Nat.mul_lt_mul_of_pos_right hk hu
      have hexp := double_exponent_eq e (k * 2 ^ e) he hlow hup
      simp only [to_double, if_neg hbig, hexp]
      exact round_even_mul _ _ hu
    · have hk3 : k = 9007199254740992 := by omega
      subst hk3
      have hre : 9007199254740992 * 2 ^ e = 4503599627370496 * 2 ^ (e + 1) := by
        rw [pow_succ]; omega
      have hexp := double_exponent_eq (e + 1) (9007199254740992 * 2 ^ e) (by omega)
        (by rw [hre]) (by rw [pow_succ]; omega)
      simp only [to_double, if_neg hbig, hexp]
      rw [hre]
      exact round_even_mul _ _ hu1

theorem to_double_mono (m n : Nat) (h : m ≤ n) : to_double m ≤ to_double n := by
  rcases Nat.lt_or_ge n 9007199254740992 with hn | hn
  · rw [to_double_small n (by omega), to_double_small m (by omega)]
    exact h
  · obtain ⟨en, kn, hen, hkn1, _, hvn, hrn, hn1, hn2⟩ := to_double_large n hn
    have hpn : 2 ≤ 2 ^ en := by
      calc 2 = 2 ^ 1 := by norm_num
        _ ≤ 2 ^ en := Nat.pow_le_pow_right (by norm_num) hen
    have hlown : 4503599627370496 * 2 ^ en ≤ to_double n := by
      rw [hvn]; exact Nat.mul_le_mul_right _ hkn1
    rcases Nat.lt_or_ge m 9007199254740992 with hm | hm
    · rw [to_double_small m (by omega)]
      omega
    · obtain ⟨em, km, hem, _, hkm2, hvm, hrm, hm1, hm2⟩ := to_double_large m hm
      have hle : em ≤ en := double_exponent_unique em en m hm1 (by omega)
      rcases Nat.lt_or_ge em en with hlt | hge
      · have hupm : to_double m ≤ 9007199254740992 * 2 ^ em := by
          rw [hvm]; exact Nat.mul_le_mul_right _ hkm2
        have hpow : 2 ^ (em + 1) ≤ 2 ^ en := Nat.pow_le_pow_right (by norm_num) hlt
        rw [pow_succ] at hpow
        omega
      · have heq : em = en := by omega
        subst heq
        rw [hrm, hrn]
        exact round_even_mono _ _ _ h

/-! The loop of `dir_size` over a listing without failure. -/

theorem dir_size.loop_map_some (l : List Node) : ∀ a : Nat,
    dir_size.loop a (l.map some) = .ret 0 (l.foldl dir_size.body a) := by
  induction l with
  | nil => intro a; rfl
  | cons n rest ih =>
    intro a
    simp only [List.map_cons, dir_size.loop, List.foldl_cons]
    exact ih _

mutual
theorem Node.descendants_readable : ∀ n : Node, n.contains_unreadable = false →
    n.descendants = n.subtree.map some
  | .absent, _ => rfl
  | .file _, _ => rfl
  | .other, _ => rfl
  | .symlink _, _ => rfl
  | .unreadable_dir, h => by simp [Node.contains_unreadable] at h
  | .dir entries, h => by
    simp only [Node.contains_unreadable] at h
    simp only [Node.descendants, Node.subtree]
    exact recursive_entries_readable entries h
theorem recursive_entries_readable : ∀ entries : List (String × Node),
    contains_unreadable entries = false →
    recursive_entries entries = (subtree_entries entries).map some
  | [], _ => rfl
  | (_, n) :: rest, h => by
    simp only [contains_unreadable, Bool.or_eq_false_iff] at h
    simp only [recursive_entries, subtree_entries, List.map_cons, List.map_append,
      Node.descendants_readable n h.1, recursive_entries_readable rest h.2]
end

theorem dir_size_non_recursive (E : ErrorNumbers) (d : Node) (entries : List (String × Node))
    (h : d.resolve = .dir entries) :
    dir_size E d false = .ret 0 ((entries.map (fun e => e.2)).foldl dir_size.body 0) := by
  have h1 : directory_iterator d = (entries.map (fun e => e.2)).map some := by
    simp [directory_iterator, h]
  simp only [dir_size, fs_exists, fs_is_directory, h, h1, dir_size.loop_map_some]
  rfl

theorem dir_size_recursive (E : ErrorNumbers) (d : Node) (entries : List (String × Node))
    (h : d.resolve = .dir entries) (hu : contains_unreadable entries = false) :
    dir_size E d true = .ret 0 ((subtree_entries entries).foldl dir_size.body 0) := by
  have h1 : recursive_directory_iterator d = (subtree_entries entries).map some := by
    simp [recursive_directory_iterator, h, recursive_entries_readable entries hu]
  simp only [dir_size, fs_exists, fs_is_directory, h, h1, dir_size.loop_map_some]
  rfl

theorem dir_size_of_unreadable (E : ErrorNumbers) (d : Node) (recurse : Bool)
    (h : d.resolve = .unreadable_dir) : dir_size E d recurse = .ret 0 0 := by
  cases recurse <;>
    simp [dir_size, fs_exists, fs_is_directory, directory_iterator,
      recursive_directory_iterator, h, dir_size.loop]

/-! Sums that stay within `2^53` are exact. -/

mutual
theorem Node.counted_bytes_true : ∀ n : Node,
    n.counted_bytes true
      = n.counted_bytes false + (n.subtree.map (fun n => n.counted_bytes false)).sum
  | .absent => rfl
  | .file size => rfl
  | .other => rfl
  | .unreadable_dir => rfl
  | .symlink target => by simp [Node.counted_bytes, Node.subtree]
  | .dir entries => by
    have h := subtree_entries_sum entries
    simp [Node.counted_bytes, Node.subtree, h]
theorem subtree_entries_sum : ∀ entries : List (String × Node),
    ((subtree_entries entries).map (fun n => n.counted_bytes false)).sum
      = counted_bytes true entries
  | [] => rfl
  | (_, n) :: rest => by
    have h1 := Node.counted_bytes_true n
    have h2 := subtree_entries_sum rest
    simp only [subtree_entries, counted_bytes, List.map_cons, List.map_append, List.sum_cons,
      List.sum_append, h1, h2]
    omega
end

theorem dir_size.body_rep (a : Nat) (n : Node) (ha : to_double a = a) :
    to_double (dir_size.body a n) = dir_size.body a n ∧ a ≤ dir_size.body a n := by
  unfold dir_size.body double_add
  split_ifs
  · refine ⟨to_double_idem _, ?_⟩
    calc a = to_double a := ha.symm
      _ ≤ to_double (a + to_double (fs_file_size n)) := to_double_mono _ _ (by omega)
  · exact ⟨ha, Nat.le_refl _⟩

theorem dir_size.body_mono (a b : Nat) (n : Node) (h : a ≤ b) :
    dir_size.body a n ≤ dir_size.body b n := by
  unfold dir_size.body double_add
  split_ifs
  · exact to_double_mono _ _ (by omega)
  · exact h

theorem dir_size.foldl_rep (l : List Node) : ∀ a : Nat, to_double a = a →
    to_double (l.foldl dir_size.body a) = l.foldl dir_size.body a
      ∧ a ≤ l.foldl dir_size.body a := by
  induction l with
  | nil => intro a ha; exact ⟨ha, Nat.le_refl _⟩
  | cons n rest ih =>
    intro a ha
    obtain ⟨h1, h2⟩ := dir_size.body_rep a n ha
    obtain ⟨h3, h4⟩ := ih _ h1
    simp only [List.foldl_cons]
    exact ⟨h3, by omega⟩

theorem dir_size.direct_le_subtree (entries : List (String × Node)) : ∀ a b : Nat,
    to_double b = b → a ≤ b →
    (entries.map (fun e => e.2)).foldl dir_size.body a
      ≤ (subtree_entries entries).foldl dir_size.body b := by
  induction entries with
  | nil => intro a b _ h; exact h
  | cons e rest ih =>
    obtain ⟨name, n⟩ := e
    intro a b hb h
    obtain ⟨h1, _⟩ := dir_size.body_rep b n hb
    obtain ⟨h3, h4⟩ := dir_size.foldl_rep n.subtree _ h1
    have h5 := dir_size.body_mono a b n h
    simp only [List.map_cons, List.foldl_cons, subtree_entries, List.foldl_append]
    exact ih _ _ h3 (by omega)

theorem Node.body_of_no_file (n : Node) (h : n.contains_file_or_link = false) (a : Nat) :
    dir_size.body a n = a := by
  have hr : fs_is_regular_file n = false := by
    cases n with
    | absent => rfl
    | file size => simp [Node.contains_file_or_link] at h
    | dir entries => rfl
    | other => rfl
    | unreadable_dir => rfl
    | symlink target =>
      simp only [Node.contains_file_or_link] at h
      simp only [fs_is_regular_file, Node.resolve]
      cases hr : target.resolve <;> simp_all
  simp [dir_size.body, hr]

mutual
theorem Node.subtree_of_no_file : ∀ n : Node, n.contains_file_or_link = false →
    ∀ a : Nat, n.subtree.foldl dir_size.body a = a
  | .absent, _, _ => rfl
  | .file _, _, _ => rfl
  | .other, _, _ => rfl
  | .unreadable_dir, _, _ => rfl
  | .symlink _, _, _ => rfl
  | .dir entries, h, a => by
    simp only [Node.contains_file_or_link] at h
    simpa [Node.subtree] using subtree_entries_of_no_file entries h a
theorem subtree_entries_of_no_file : ∀ entries : List (String × Node),
    contains_file_or_link entries = false →
    ∀ a : Nat, (subtree_entries entries).foldl dir_size.body a = a
  | [], _, _ => rfl
  | (_, n) :: rest, h, a => by
    simp only [contains_file_or_link, Bool.or_eq_false_iff] at h
    simp only [subtree_entries, List.foldl_cons, List.foldl_append,
      Node.body_of_no_file n h.1, Node.subtree_of_no_file n h.1,
      subtree_entries_of_no_file rest h.2]
end

theorem dir_size.subtree_eq_direct (entries : List (String × Node))
    (h : subdirectory_contains_file_or_link entries = false) : ∀ a : Nat,
    (subtree_entries entries).foldl dir_size.body a
      = (entries.map (fun e => e.2)).foldl dir_size.body a := by
  induction entries with
  | nil => intro a; rfl
  | cons e rest ih =>
    obtain ⟨name, n⟩ := e
    intro a
    cases n with
    | dir sub =>
      simp only [subdirectory_contains_file_or_link, Bool.or_eq_false_iff] at h
      simp only [subtree_entries, List.foldl_cons, List.foldl_append, List.map_cons,
        Node.subtree, subtree_entries_of_no_file sub h.1, ih h.2]
    | absent =>
      simp only [subdirectory_contains_file_or_link] at h
      simp [subtree_entries, Node.subtree, ih h]
    | file size =>
      simp only [subdirectory_contains_file_or_link] at h
      simp [subtree_entries, Node.subtree, ih h]
    | symlink target =>
      simp only [subdirectory_contains_file_or_link] at h
      simp [subtree_entries, Node.subtree, ih h]
    | other =>
      simp only [subdirectory_contains_file_or_link] at h
      simp [subtree_entries, Node.subtree, ih h]
    | unreadable_dir =>
      simp only [subdirectory_contains_file_or_link] at h
      simp [subtree_entries, Node.subtree, ih h]

/-- C7, the claim as written, fails: (1) in `d` with the single subdirectory `sub`, whose
single entry is a symbolic link to a regular file of 7 bytes, no subdirectory contains a
(regular) file, yet `dir_size` reports `7` with `recurse` and `0` without; (2) in `d` with
the file `a` (10 bytes) and a subdirectory that cannot be listed, the call without
`recurse` returns `0` with size `10`, and the call with `recurse` throws and so reports no
size at all. -/
theorem dir_size_recurse_differs_without_files :
    subdirectory_contains_file [("sub", .dir [("l", .symlink (.file 7))])] = false
      ∧ dir_size boinc_error_numbers (.dir [("sub", .dir [("l", .symlink (.file 7))])]) true
        = .ret 0 7
      ∧ dir_size boinc_error_numbers (.dir [("sub", .dir [("l", .symlink (.file 7))])]) false
        = .ret 0 0
      ∧ dir_size boinc_error_numbers (.dir [("a", .file 10), ("locked", .unreadable_dir)]) false
        = .ret 0 10
      ∧ dir_size boinc_error_numbers (.dir [("a", .file 10), ("locked", .unreadable_dir)]) true
        = .thrown 10 := by
  decide

/-- C7, amended: for every directory `d` that can be listed and in whose subtree every
directory can be listed, both calls of `dir_size` return `0`, the size reported with
`recurse = true` is at least the size reported with `recurse = false` (whatever the
rounding of the `double` sums), and the two are equal when no subdirectory of `d` contains,
at any depth, a regular file or a symbolic link leading to a regular file.  For a `d` that
cannot be listed both calls return `0` with size `0`. -/
theorem dir_size_recurse_ge (E : ErrorNumbers) (d : Node) :
    (d.resolve = .unreadable_dir →
        dir_size E d true = .ret 0 0 ∧ dir_size E d false = .ret 0 0)
      ∧ (∀ entries, d.resolve = .dir entries → contains_unreadable entries = false →
        dir_size E d true = .ret 0 (dir_size E d true).size
          ∧ dir_size E d false = .ret 0 (dir_size E d false).size
          ∧ (dir_size E d false).size ≤ (dir_size E d true).size
          ∧ (subdirectory_contains_file_or_link entries = false →
            (dir_size E d true).size = (dir_size E d false).size)) := by
  refine ⟨fun h => ⟨dir_size_of_unreadable E d true h, dir_size_of_unreadable E d false h⟩, ?_⟩
  intro entries hd hu
  rw [dir_size_recursive E d entries hd hu, dir_size_non_recursive E d entries hd]
  refine ⟨rfl, rfl, ?_, fun h => ?_⟩
  · exact dir_size.direct_le_subtree entries 0 0 (by decide) (Nat.le_refl _)
  · exact dir_size.subtree_eq_direct entries h 0

/-- The witness of `dir_size_recurse_ge`: the scenario directory (35 ≥ 30), and a directory
whose subdirectory holds only a dangling link (equal sizes). -/
theorem dir_size_recurse_ge_witness :
    (dir_size boinc_error_numbers scenario_dir false).size
        ≤ (dir_size boinc_error_numbers scenario_dir true).size
      ∧ (dir_size boinc_error_numbers
          (.dir [("a", .file 10), ("sub", .dir [("x", .symlink .absent)])]) true).size
        = (dir_size boinc_error_numbers
          (.dir [("a", .file 10), ("sub", .dir [("x", .symlink .absent)])]) false).size :=
  ⟨((dir_size_recurse_ge boinc_error_numbers scenario_dir).2 _ rfl (by decide)).2.2.1,
    ((dir_size_recurse_ge boinc_error_numbers
      (.dir [("a", .file 10), ("sub", .dir [("x", .symlink .absent)])])).2 _ rfl
      (by decide)).2.2.2 (by decide)⟩

/-! ### Theorems about `boinc_touch_file` -/

theorem Node.create_file_is_file : ∀ n : Node, fs_exists n = false →
    fs_is_regular_file n.create_file = true
  | .absent, _ => rfl
  | .file _, h => by simp [fs_exists, Node.resolve] at h
  | .dir _, h => by simp [fs_exists, Node.resolve] at h
  | .other, h => by simp [fs_exists, Node.resolve] at h
  | .symlink target, h => by
    have h1 : fs_exists target = false := by simpa [fs_exists, Node.resolve] using h
    have h2 := Node.create_file_is_file target h1
    simpa [Node.create_file, fs_is_regular_file, Node.resolve] using h2

theorem Node.create_file_size : ∀ n : Node, fs_exists n = false →
    fs_file_size n.create_file = 0
  | .absent, _ => rfl
  | .file _, h => by simp [fs_exists, Node.resolve] at h
  | .dir _, h => by simp [fs_exists, Node.resolve] at h
  | .other, h => by simp [fs_exists, Node.resolve] at h
  | .symlink target, h => by
    have h1 : fs_exists target = false := by simpa [fs_exists, Node.resolve] using h
    have h2 := Node.create_file_size target h1
    simpa [Node.create_file, fs_file_size, Node.resolve] using h2

theorem fs_exists_of_is_regular_file (n : Node) (h : fs_is_regular_file n = true) :
    fs_exists n = true := by
  simp only [fs_is_regular_file, fs_exists] at *
  cases hr : n.resolve <;> simp_all

/-- C8, the claim as written, fails: for a path that is an existing directory,
`boinc_touch_file` changes nothing and returns `0`, and `is_file` is false afterwards. -/
theorem boinc_touch_file_on_directory :
    boinc_touch_file (.dir []) true = (0, .dir [])
      ∧ is_file (boinc_touch_file (.dir []) true).2 = false :=
  ⟨rfl, rfl⟩

/-- C8, amended: after `boinc_touch_file(p)` has returned `0`, `p` exists, and `is_file(p)`
is true exactly when `p` did not exist before the call or was a regular file already; the
call leaves a path that exists (of any type) as it is, and otherwise creates an empty
regular file. -/
theorem boinc_touch_file_then_is_file (p : Node) (open_ok : Bool)
    (h : (boinc_touch_file p open_ok).1 = 0) :
    fs_exists (boinc_touch_file p open_ok).2 = true
      ∧ (is_file (boinc_touch_file p open_ok).2 = true ↔
        (fs_exists p = false ∨ is_file p = true))
      ∧ (fs_exists p = true → (boinc_touch_file p open_ok).2 = p)
      ∧ (fs_exists p = false →
        (boinc_touch_file p open_ok).2 = p.create_file
          ∧ fs_file_size (boinc_touch_file p open_ok).2 = 0) := by
  by_cases he : fs_exists p = true
  · have h1 : boinc_touch_file p open_ok = (0, p) := by simp [boinc_touch_file, he]
    rw [h1]
    refine ⟨he, ?_, fun _ => rfl, fun hn => ?_⟩
    · simp [he]
    · rw [he] at hn
      exact absurd hn (by decide)
  · have he1 : fs_exists p = false := by simpa using he
    cases open_ok with
    | false => simp [boinc_touch_file, he1] at h
    | true =>
      have h1 : boinc_touch_file p true = (0, p.create_file) := by
        simp [boinc_touch_file, he1]
      rw [h1]
      have h2 := Node.create_file_is_file p he1
      refine ⟨fs_exists_of_is_regular_file _ h2, ?_, fun hx => ?_, fun _ => ⟨rfl, ?_⟩⟩
      · simp [is_file, h2, he1]
      · rw [he1] at hx
        exact absurd hx (by decide)
      · exact Node.create_file_size p he1

/-- The witness of `boinc_touch_file_then_is_file`: touching a path that is a dangling
symbolic link creates the file the link points to. -/
theorem boinc_touch_file_then_is_file_witness :
    (boinc_touch_file (.symlink .absent) true).1 = 0
      ∧ is_file (boinc_touch_file (.symlink .absent) true).2 = true :=
  ⟨by decide,
    (boinc_touch_file_then_is_file (.symlink .absent) true (by decide)).2.1.mpr
      (Or.inl (by decide))⟩

/-! ### Theorems about `FILE_LOCK` -/

/-- C9: on a handle as constructed (`fd = -1`, `locked = false`), a call of `lock` in which
`open` succeeds with descriptor 3 and `flock` fails (another owner holds the lock) returns
the non-zero `ERR_FCNTL` and leaves `fd = 3` in the handle: the stored descriptor is not the
`-1` it was before the call.  (When `open` itself fails, `fd` is `-1` as before; when both
succeed, `lock` returns `0` with `locked = true`; `unlock` puts the handle back into the
state it had when constructed.) -/
theorem FILE_LOCK_lock_failure_keeps_descriptor :
    FILE_LOCK.lock boinc_error_numbers FILE_LOCK.create (some 3) false
        = (boinc_error_numbers.ERR_FCNTL, ⟨3, false⟩)
      ∧ (FILE_LOCK.lock boinc_error_numbers FILE_LOCK.create (some 3) false).2.fd
        ≠ FILE_LOCK.create.fd
      ∧ FILE_LOCK.lock boinc_error_numbers FILE_LOCK.create none true
        = (boinc_error_numbers.ERR_OPEN, FILE_LOCK.create)
      ∧ FILE_LOCK.lock boinc_error_numbers FILE_LOCK.create (some 3) true
        = (0, ⟨3, true⟩)
      ∧ (FILE_LOCK.unlock boinc_error_numbers ⟨3, true⟩ true (fun _ => true) "" "lockfile").2.1
        = FILE_LOCK.create := by
  decide

/-! ### Theorems about `read_file_string` -/

theorem c_string_terminated (bytes : List Byte) : c_string (bytes ++ [0]) = c_string bytes := by
  induction bytes with
  | nil => rfl
  | cons b rest ih =>
    simp only [c_string] at ih
    by_cases hb : b = 0
    · simp [c_string, hb]
    · simp [c_string, List.takeWhile_cons, hb, ih]

theorem c_string_of_no_zero (bytes : List Byte) (h : (0 : Byte) ∉ bytes) :
    c_string bytes = bytes := by
  induction bytes with
  | nil => rfl
  | cons b rest ih =>
    have hb : b ≠ 0 := fun hb => h (by simp [hb])
    have hr : (0 : Byte) ∉ rest := fun hr => h (by simp [hr])
    have ih1 := ih hr
    simp only [c_string] at ih1
    simp [c_string, List.takeWhile_cons, hb, ih1]

/-- A call of `read_file_malloc` that returns `0` has filled a buffer ending in a `0`. -/
theorem read_file_malloc_zero_buf (E : ErrorNumbers) (file : Option (List Byte))
    (malloc_ok : Nat → Bool) (max_len : Nat) (tail : Bool) (buf : Option (List Byte))
    (h : read_file_malloc E file malloc_ok max_len tail = .ret 0 buf) :
    ∃ bytes, buf = some (bytes ++ [0]) := by
  cases file with
  | none =>
    simp only [read_file_malloc, ReadResult.ret.injEq] at h
    exact absurd h.1 E.ERR_FOPEN_ne
  | some c =>
    simp only [read_file_malloc] at h
    split_ifs at h with h1 h2 h3 <;>
      first
      | exact absurd (ReadResult.ret.inj h).1 E.ERR_MALLOC_ne
      | exact ⟨_, (ReadResult.ret.inj h).2.symm⟩

theorem read_file_malloc_whole (E : ErrorNumbers) (c : List Byte) (malloc_ok : Nat → Bool)
    (hS : c.length < 9223372036854775808) (hm : malloc_ok (c.length + 1) = true) :
    read_file_malloc E (some c) malloc_ok 0 false = .ret 0 (some (c ++ [0])) := by
  have h1 : to_size_t ((c.length : Int) + 1) = c.length + 1 := by
    have := to_size_t_small (c.length + 1) (by omega)
    simpa using this
  simp [read_file_malloc, h1, hm]

/-- C11, the claim as written, fails: the 3-byte file `41 00 42` read with `max_len = 0`
and `tail = false` makes `read_file_malloc` deliver all 3 bytes (and the terminator), while
`read_file_string` returns the same code `0` with the 1-byte result `41`: the bytes from
the first `0` byte on are dropped. -/
theorem read_file_string_drops_after_zero :
    read_file_malloc boinc_error_numbers (some [0x41, 0, 0x42]) malloc_always 0 false
        = .ret 0 (some [0x41, 0, 0x42, 0])
      ∧ read_file_string boinc_error_numbers (some [0x41, 0, 0x42]) malloc_always [] 0 false
        = .ret 0 [0x41]
      ∧ read_file_string boinc_error_numbers (some [0x41, 0, 0x42]) malloc_always [] 0 false
        ≠ .ret 0 [0x41, 0, 0x42] := by
  decide

/-- C11, amended: for every file, `max_len` and `tail`, `read_file_string` returns the same
code as `read_file_malloc` (and is undefined exactly when that call is); a non-zero code
leaves `result` as it was; when the code is `0` and `read_file_malloc` delivers the bytes
`bytes` (followed by the terminator), `result` is the part of `bytes` before its first `0`
byte, hence all of `bytes` when no `0` byte is among them.  In particular, with
`max_len = 0` and `tail = false`, a file whose content `c` holds no `0` byte gives
`result = c` (when the allocation succeeds). -/
theorem read_file_string_refines (E : ErrorNumbers) (file : Option (List Byte))
    (malloc_ok : Nat → Bool) (result : List Byte) (max_len : Nat) (tail : Bool) :
    (read_file_string E file malloc_ok result max_len tail).code
        = (read_file_malloc E file malloc_ok max_len tail).code
      ∧ (∀ retval buf, read_file_malloc E file malloc_ok max_len tail = .ret retval buf →
        retval ≠ 0 → read_file_string E file malloc_ok result max_len tail = .ret retval result)
      ∧ (∀ bytes, read_file_malloc E file malloc_ok max_len tail = .ret 0 (some (bytes ++ [0])) →
        read_file_string E file malloc_ok result max_len tail = .ret 0 (c_string bytes)
          ∧ ((0 : Byte) ∉ bytes →
            read_file_string E file malloc_ok result max_len tail = .ret 0 bytes))
      ∧ (∀ c, file = some c → c.length < 9223372036854775808 →
        malloc_ok (c.length + 1) = true → (0 : Byte) ∉ c →
        read_file_string E file malloc_ok result 0 false = .ret 0 c) := by
  have hzero : ∀ bytes,
      read_file_malloc E file malloc_ok max_len tail = .ret 0 (some (bytes ++ [0])) →
      read_file_string E file malloc_ok result max_len tail = .ret 0 (c_string bytes) := by
    intro bytes h
    simp [read_file_string, h, c_string_terminated]
  refine ⟨?_, ?_, ?_, ?_⟩
  · cases hr : read_file_malloc E file malloc_ok max_len tail with
    | undefined => simp [read_file_string, hr, ReadResult.code, ReadStringResult.code]
    | ret retval buf =>
      by_cases h0 : retval = 0
      · subst h0
        obtain ⟨bytes, hb⟩ := read_file_malloc_zero_buf E file malloc_ok max_len tail buf hr
        subst hb
        simp [read_file_string, hr, ReadResult.code, ReadStringResult.code]
      · simp [read_file_string, hr, ReadResult.code, ReadStringResult.code, h0]
  · intro retval buf h hne
    simp [read_file_string, h, hne]
  · intro bytes h
    refine ⟨hzero bytes h, fun hz => ?_⟩
    rw [hzero bytes h, c_string_of_no_zero bytes hz]
  · intro c hc hS hm hz
    subst hc
    have h := read_file_malloc_whole E c malloc_ok hS hm
    simp [read_file_string, h, c_string_terminated, c_string_of_no_zero c hz]

/-- The witness of `read_file_string_refines`: a 3-byte text file read whole, and the
last 2 bytes of a file whose first byte is `0`. -/
theorem read_file_string_refines_witness :
    read_file_string boinc_error_numbers (some [0x61, 0x62, 0x63]) malloc_always [] 0 false
        = .ret 0 [0x61, 0x62, 0x63]
      ∧ read_file_string boinc_error_numbers (some [0, 0x62, 0x63]) malloc_always [] 2 true
        = .ret 0 [0x62, 0x63] :=
  ⟨(read_file_string_refines boinc_error_numbers (some [0x61, 0x62, 0x63]) malloc_always []
      0 false).2.2.2 [0x61, 0x62, 0x63] rfl (by decide) (by decide) (by decide),
    ((read_file_string_refines boinc_error_numbers (some [0, 0x62, 0x63]) malloc_always []
      2 true).2.2.1 [0x62, 0x63] (by decide)).2 (by decide)⟩

end Boinc
